import Mathlib

/-
  Verification development for the 3decision structure-database plugin's
  API-orchestration layer (api_client.py and the polling/merge logic in
  gui.py).  Python values are embedded shallowly: Python `str` becomes
  `List Char`, dict-field access with a default becomes `Option`/`getD`,
  truthiness checks become explicit emptiness/zero tests, HTTP traffic is
  an explicit environment argument, and `None` results become `Option`.
  Functions that can raise to their caller return `Except String _`.
-/

set_option maxRecDepth 20000

namespace ThreeDec

/-! ## Python strings, modelled as character lists -/

/-- Embed a Lean string literal as the character-list model of a Python str. -/
def str (s : String) : List Char := s.data

/-- Python truthiness of an optional string: `None` and the empty string are falsy. -/
def strTruthy : Option (List Char) → Bool
  | none => false
  | some s => !s.isEmpty

/-- Python `s.lower()`. -/
def lowerStr (s : List Char) : List Char := s.map Char.toLower

/-- Python `s.endswith(suf)`. -/
def endsWithStr (suf s : List Char) : Bool :=
  suf == s.drop (s.length - suf.length)

/-- Python `s.split(sep)` for a one-character separator. -/
def splitOnChar (sep : Char) : List Char → List (List Char)
  | [] => [[]]
  | c :: rest =>
    if c = sep then [] :: splitOnChar sep rest
    else
      match splitOnChar sep rest with
      | [] => [[c]]
      | w :: ws => (c :: w) :: ws

/-- Python `filename.split('/')[-1]`: the entry name with any path stripped. -/
def baseName (s : List Char) : List Char := (splitOnChar '/' s).getLastD s

/-- Python `s.strip()`: whitespace removed from both ends. -/
def pyStrip (s : List Char) : List Char :=
  ((s.dropWhile Char.isWhitespace).reverse.dropWhile Char.isWhitespace).reverse

/-! ## Session/Transport state (api_client.py, `ThreeDecisionAPIClient`)

The client's mutable state is `base_url`, `api_key` and `token`
(`__init__`, lines 76-84).  The requests-session headers always mirror
`token`, so they are not tracked separately. -/

structure Client where
  base_url : Option (List Char)
  api_key : Option (List Char)
  token : Option (List Char)
deriving DecidableEq, Repr

/-- `is_configured` (line 233): true iff base_url and api_key are both truthy. -/
def is_configured (c : Client) : Bool :=
  strTruthy c.base_url && strTruthy c.api_key

/-- Environment for one `login()` call: the HTTP status of
`GET {base}/auth/api/login` and the `access_token` field of its JSON body
(`none` models a missing field). -/
structure LoginResponse where
  status : Nat
  access_token : Option (List Char)
deriving DecidableEq, Repr

/-- `login` (lines 241-285).  On HTTP 200/201 the token is overwritten by
`data.get('access_token')` (even when that is `None`), and the call
succeeds iff the stored token is then truthy.  On any other status the
token is left unchanged and the call fails. -/
def login (c : Client) (r : LoginResponse) : Bool × Client :=
  if !is_configured c then (false, c)
  else if r.status = 200 || r.status = 201 then
    let c' : Client := { c with token := r.access_token }
    if strTruthy c'.token then (true, c') else (false, c')
  else (false, c)

/-- `test_connection` (lines 287-300): a held token is trusted without a
network call; otherwise one `login()` attempt decides the outcome. -/
def test_connection (c : Client) (r : LoginResponse) : Bool × Client :=
  if !is_configured c then (false, c)
  else if strTruthy c.token then (true, c)
  else login c r

/-- `is_authenticated` (lines 237-239). -/
def is_authenticated (c : Client) (r : LoginResponse) : Bool :=
  is_configured c && (test_connection c r).1

/-- One observable step of `_request_with_retry`: an HTTP request carrying
an optional Authorization header value, or a call to `login()`. -/
inductive TraceEvent
  | httpRequest (auth : Option (List Char))
  | loginCall
deriving DecidableEq, Repr

/-- The string "Bearer " prepended to a token, as in the Authorization header. -/
def bearer (t : List Char) : List Char := str "Bearer " ++ t

/-- Environment for one `_request_with_retry` call: the status of the
initial response, the login endpoint's behaviour should a re-login be
attempted, and the status of the retried request. -/
structure RetryEnv where
  firstStatus : Nat
  loginResp : LoginResponse
  retryStatus : Nat
deriving DecidableEq, Repr

/-- `_request_with_retry` (lines 134-200).  `callerAuth` models an
Authorization value already present in the caller-supplied headers dict.
Returns the final response status (`none` is the hard-failure sentinel),
the client state afterwards, and the trace of requests and login calls. -/
def request_with_retry (c : Client) (callerAuth : Option (List Char)) (env : RetryEnv) :
    Option Nat × Client × List TraceEvent :=
  let auth0 : Option (List Char) :=
    match callerAuth with
    | some a => some a
    | none => if strTruthy c.token then some (bearer (c.token.getD [])) else none
  if env.firstStatus = 401 || env.firstStatus = 403 then
    let c1 : Client := { c with token := none }
    let lr := login c1 env.loginResp
    if lr.1 then
      (some env.retryStatus, lr.2,
        [TraceEvent.httpRequest auth0, TraceEvent.loginCall,
         TraceEvent.httpRequest (some (bearer (lr.2.token.getD [])))])
    else
      (none, lr.2, [TraceEvent.httpRequest auth0, TraceEvent.loginCall])
  else
    (some env.firstStatus, c, [TraceEvent.httpRequest auth0])

/-- Number of HTTP requests in a trace. -/
def countRequests (evs : List TraceEvent) : Nat :=
  (evs.filter (fun e => match e with | TraceEvent.httpRequest _ => true | _ => false)).length

/-- Number of login attempts in a trace. -/
def countLogins (evs : List TraceEvent) : Nat :=
  (evs.filter (fun e => match e with | TraceEvent.loginCall => true | _ => false)).length

/-! ## Structure Info Resolver (`get_structures_info`, `_fetch_structures_batch`)

A GraphQL `getStructuresInfo` entry is reduced to its `structure_id`
field (`none` models a missing or null field, `some 0` the falsy integer
0) plus an opaque payload distinguishing entries.  The server is an
environment mapping each queried id chunk to the entry list of the
response, with `none` modelling a failed request, a non-2xx status, an
unexpected response shape or an exception, all of which make a batch
contribute zero records (lines 526-560). -/

structure SEntry where
  structure_id : Option Int
  payload : Nat
deriving DecidableEq, Repr

/-- The deduplication loop of `_fetch_structures_batch` (lines 540-547):
keep the first entry per `structure_id`, skipping entries whose
`structure_id` is falsy (`if structure_id and structure_id not in seen_ids`). -/
def dedupStructures (seen : List Int) : List SEntry → List SEntry
  | [] => []
  | e :: rest =>
    match e.structure_id with
    | none => dedupStructures seen rest
    | some i =>
      if i ≠ 0 ∧ i ∉ seen then e :: dedupStructures (i :: seen) rest
      else dedupStructures seen rest

/-- `_fetch_structures_batch` (lines 480-560): one GraphQL call for one id
chunk, deduplicated; every failure mode yields the empty list. -/
def fetch_structures_batch (server : List Int → Option (List SEntry))
    (ids : List Int) : List SEntry :=
  match server ids with
  | none => []
  | some entries => dedupStructures [] entries

/-- The chunk list produced by `for i in range(0, len(ids), 500): ids[i:i+500]`
(lines 455-456), written with an explicit fuel so that it computes by
structural recursion; `chunks500` supplies fuel `ids.length`, which always
suffices. -/
def chunksAux : Nat → List Int → List (List Int)
  | _, [] => []
  | 0, _ :: _ => []
  | Nat.succ fuel, x :: xs => (x :: xs).take 500 :: chunksAux fuel ((x :: xs).drop 500)

/-- The consecutive 500-id chunks of an id list, in input order. -/
def chunks500 (ids : List Int) : List (List Int) := chunksAux ids.length ids

/-- Concatenation of a list of lists, in order. -/
def joinAll {α : Type} : List (List α) → List α
  | [] => []
  | l :: ls => l ++ joinAll ls

/-- `get_structures_info` (lines 441-478).  For more than 500 ids, one
batched call per consecutive 500-id chunk, results concatenated in chunk
order (extending by an empty batch result is a no-op, so the
`if batch_structures` guard is dropped without changing the value);
otherwise a single call on the whole list.  The second component records
the argument of each `_fetch_structures_batch` call, in call order. -/
def get_structures_info (server : List Int → Option (List SEntry))
    (ids : List Int) : List SEntry × List (List Int) :=
  if 500 < ids.length then
    (joinAll ((chunks500 ids).map (fun c => fetch_structures_batch server c)),
     chunks500 ids)
  else
    (fetch_structures_batch server ids, [ids])

/-- The `structure_id` values carried by a list of entries. -/
def entryIds (l : List SEntry) : List Int := l.filterMap SEntry.structure_id

/-- A well-formed GraphQL server answers a chunked query only with entries
whose `structure_id` was among the queried ids. -/
def WellFormedServer (server : List Int → Option (List SEntry)) : Prop :=
  ∀ q es, server q = some es → ∀ e ∈ es, ∀ i, e.structure_id = some i → i ∈ q

/-- A concrete well-behaved server for the chunking counterexample: it
answers with the single record of structure id 1 whenever that id was
queried (one multi-state-free record per queried structure). -/
def serverCEx : List Int → Option (List SEntry) :=
  fun q => some (if q.contains 1 then [⟨some 1, 0⟩] else [])

/-- A concrete id sequence of length 501 in which id 1 recurs across the
500-boundary: ids 1..500 followed by 1 again. -/
def widsCEx : List Int := (List.range 500).map (fun (i : Nat) => ((i : Int) + 1)) ++ [1]

/-- A concrete sequence of 501 pairwise-distinct ids, for the witness. -/
def widsW : List Int := (List.range 501).map (fun (i : Nat) => ((i : Int) + 1))

/-! ## Search polling (gui.py, `SearchThread.run`, lines 115-156)

One poll of `GET /queues/{queue}/jobs/{id}` is reduced to the fields the
loop reads: `progress` (`result.get('progress', 0)`), the
`returnvalue.STRUCTURE_ID` list when present, and whether
`result.get('status') == 'failed'`.  `none` at the environment level
models `get_job_status` returning `None`. -/

structure SearchPollResult where
  progress : Option Nat
  structure_ids : Option (List Int)
  status_failed : Bool
deriving DecidableEq, Repr

inductive SearchOutcome
  | results (ids : List Int)
  | jobFailed
  | timedOut
deriving DecidableEq, Repr

/-- How `SearchThread.run` treats one successfully fetched poll response
(lines 124-144): `some out` means the loop stops with outcome `out`,
`none` means it sleeps and polls again.  The extracted id list defaults to
`[]` when `returnvalue.STRUCTURE_ID` is absent (line 128), and the
terminal test is `progress == 100 or (empty-list and progress > 0)`
(line 133). -/
def searchPollStep (r : SearchPollResult) : Option SearchOutcome :=
  let p := r.progress.getD 0
  let sids := r.structure_ids.getD []
  if p = 100 || (sids.isEmpty && decide (0 < p)) then some (SearchOutcome.results sids)
  else if r.status_failed then some SearchOutcome.jobFailed
  else none

/-- The polling loop of `SearchThread.run`: up to `fuel` further attempts,
polling attempt indices `attempt, attempt+1, ...`; a `None` job status
just advances to the next attempt (lines 118-153). -/
def runSearchPoll (polls : Nat → Option SearchPollResult) : Nat → Nat → SearchOutcome
  | 0, _ => SearchOutcome.timedOut
  | Nat.succ fuel, attempt =>
    match polls attempt with
    | none => runSearchPoll polls fuel (attempt + 1)
    | some r =>
      match searchPollStep r with
      | some out => out
      | none => runSearchPoll polls fuel (attempt + 1)

/-- The whole basic-search polling loop: `max_attempts = 60` (line 115). -/
def search_poll_loop (polls : Nat → Option SearchPollResult) : SearchOutcome :=
  runSearchPoll polls 60 0

/-- True when a poll response makes the loop continue to the next attempt:
either `get_job_status` returned `None`, or the response is non-terminal. -/
def searchPollContinues : Option SearchPollResult → Bool
  | none => true
  | some r => (searchPollStep r).isNone

/-- Modelled from the claim's words, for comparison with `searchPollStep`:
terminal exactly when `progress == 100`, or when the
`returnvalue.STRUCTURE_ID` list is present and empty while `progress > 0`. -/
def claimedSearchTerminal (r : SearchPollResult) : Bool :=
  r.progress.getD 0 = 100 ||
    (r.structure_ids == some [] && decide (0 < r.progress.getD 0))

/-- The terminal condition the code actually implements (the amended
claim): progress is 100, or the extracted id list (defaulting to empty
when the field is absent) is empty while progress is positive, or the job
status is `failed`. -/
def amendedSearchTerminal (r : SearchPollResult) : Bool :=
  r.progress.getD 0 = 100 ||
    ((r.structure_ids.getD []).isEmpty && decide (0 < r.progress.getD 0)) ||
    r.status_failed

/-! ## Export domain-event polling

One `GET /domain-events/{id}` response is reduced to the fields the export
loops read: `state`, `content.errors.not_exported` and
`content.file_names`.  `PollHttp.fail` models `_request_with_retry`
returning `None`; `PollHttp.badStatus` models a non-2xx status or an
unparseable body. -/

inductive DState
  | success
  | failed
  | other
deriving DecidableEq, Repr

structure FileEntry where
  file_name : Option (List Char)
  external_code : Option (List Char)
deriving DecidableEq, Repr

structure DomainData where
  state : DState
  not_exported : List (List Char)
  file_names : List FileEntry
deriving DecidableEq, Repr

inductive PollHttp
  | fail
  | badStatus
  | ok (d : DomainData)
deriving DecidableEq, Repr

/-- Observable outcome of one of the export polling loops: the returned
value, the number of poll requests issued, the seconds slept, and the
number of file-download requests issued. -/
structure LoopOut (β : Type) where
  result : Option β
  polls : Nat
  sleepSecs : Nat
  downloads : Nat
deriving DecidableEq, Repr

/-- True when a poll leaves the export still processing: an HTTP 2xx
response whose `state` is neither `success` nor `failed`. -/
def isNonTerminalOk : PollHttp → Bool
  | PollHttp.ok d => match d.state with | DState.other => true | _ => false
  | _ => false

/-- The polling loop shared verbatim by `export_structure_pdb`
(lines 673-783) and `download_structures_zip` (lines 1220-1335): on a
request failure, a non-2xx status, a `failed` state, export errors, a
missing or falsy filename, or a failed download, return `None`; on
`success` without errors, download the file (2xx accepted); otherwise
sleep 2 seconds and try the next attempt, up to the fuel bound
(`max_attempts = 30`). -/
def singleExportPollLoop (β : Type) (poll : Nat → PollHttp)
    (dl : Option (Nat × β)) : Nat → Nat → LoopOut β
  | 0, _ => ⟨none, 0, 0, 0⟩
  | Nat.succ fuel, attempt =>
    match poll attempt with
    | PollHttp.fail => ⟨none, 1, 0, 0⟩
    | PollHttp.badStatus => ⟨none, 1, 0, 0⟩
    | PollHttp.ok d =>
      match d.state with
      | DState.failed => ⟨none, 1, 0, 0⟩
      | DState.success =>
        if !d.not_exported.isEmpty then ⟨none, 1, 0, 0⟩
        else
          match d.file_names with
          | [] => ⟨none, 1, 0, 0⟩
          | f :: _ =>
            if !strTruthy f.file_name then ⟨none, 1, 0, 0⟩
            else
              match dl with
              | none => ⟨none, 1, 0, 1⟩
              | some (st, body) =>
                if st = 200 || st = 201 then ⟨some body, 1, 0, 1⟩
                else ⟨none, 1, 0, 1⟩
      | DState.other =>
        let r := singleExportPollLoop β poll dl fuel (attempt + 1)
        ⟨r.result, r.polls + 1, r.sleepSecs + 2, r.downloads⟩

/-- The polling loop of `export_structures_with_transforms`
(lines 1045-1137).  It differs from `singleExportPollLoop` in three ways
faithful to the source: a non-2xx poll status falls through to the next
attempt instead of aborting, the download success test is `== 200` only,
and the 2-second sleep is skipped after the final attempt
(`attempt += 1; if attempt < max_attempts: time.sleep(2)`).  On success
the single downloaded text is keyed by the first request's external code
(line 1114-1115). -/
def batchExportPollLoop (poll : Nat → PollHttp) (dl : Option (Nat × List Char))
    (firstCode : List Char) : Nat → Nat → LoopOut (List (List Char × List Char))
  | 0, _ => ⟨none, 0, 0, 0⟩
  | Nat.succ fuel, attempt =>
    match poll attempt with
    | PollHttp.fail => ⟨none, 1, 0, 0⟩
    | PollHttp.badStatus =>
      let r := batchExportPollLoop poll dl firstCode fuel (attempt + 1)
      ⟨r.result, r.polls + 1,
       r.sleepSecs + (if attempt + 1 < 30 then 2 else 0), r.downloads⟩
    | PollHttp.ok d =>
      match d.state with
      | DState.failed => ⟨none, 1, 0, 0⟩
      | DState.success =>
        if !d.not_exported.isEmpty then ⟨none, 1, 0, 0⟩
        else
          match d.file_names with
          | [] => ⟨none, 1, 0, 0⟩
          | f :: _ =>
            if !strTruthy f.file_name then ⟨none, 1, 0, 0⟩
            else
              match dl with
              | none => ⟨none, 1, 0, 1⟩
              | some (st, body) =>
                if st = 200 then
                  ⟨some [(firstCode ++ str ".pdb", body)], 1, 0, 1⟩
                else ⟨none, 1, 0, 1⟩
      | DState.other =>
        let r := batchExportPollLoop poll dl firstCode fuel (attempt + 1)
        ⟨r.result, r.polls + 1,
         r.sleepSecs + (if attempt + 1 < 30 then 2 else 0), r.downloads⟩

/-! ## ZIP unpacking (`export_structures_with_transforms`, lines 950-994) -/

/-- Downloaded ZIP bytes, as far as the extraction code observes them:
falsy (empty) content, content `zipfile` rejects, or a readable archive
as an ordered list of (entry name, decoded content) pairs. -/
inductive ZipContent
  | empty
  | unreadable
  | archive (entries : List (List Char × List Char))
deriving DecidableEq, Repr

/-- Python dict assignment `d[k] = v` on a dict kept as an ordered
association list: an existing key keeps its position and gets the new
value, a new key is appended. -/
def dictInsert (m : List (List Char × List Char)) (k v : List Char) :
    List (List Char × List Char) :=
  if m.any (fun p => p.1 == k) then
    m.map (fun p => if p.1 == k then (k, v) else p)
  else m ++ [(k, v)]

/-- Lines 950-994: `if not zip_content: return None`; `BadZipFile` means
`None`; otherwise every entry ending in `.pdb` is stored in a dict keyed
by its path-stripped name, and an empty dict is reported as failure
(`"No PDB files were extracted from ZIP"`). -/
def extract_pdbs_from_zip : ZipContent → Option (List (List Char × List Char))
  | ZipContent.empty => none
  | ZipContent.unreadable => none
  | ZipContent.archive es =>
    let pdbFiles := es.filter (fun e => endsWithStr (str ".pdb") e.1)
    let d := pdbFiles.foldl (fun m e => dictInsert m (baseName e.1) e.2) []
    if d.isEmpty then none else some d

/-! ## Raised versus null failures across the client operations

Each public client operation is embedded as `Except String _`: an
`Except.error` models an exception escaping to the caller, `Except.ok`
with a `none`/empty payload models the logged-and-swallowed failure
paths.  Their bodies follow the source's guard order; the HTTP responses
each operation consumes are explicit arguments. -/

/-- A raw project dict, reduced to the fields the GUI filter reads
(`project.get('project_label', '')`, `project.get('project_name', '')`)
plus an opaque payload distinguishing records. -/
structure ProjRecord where
  project_label : Option (List Char)
  project_name : Option (List Char)
  payload : Nat
deriving DecidableEq, Repr

/-- The body shapes `get_projects` accepts (lines 833-848): a bare list, a
dict with a `projects` key, a dict with a `results` key, or anything else
(which degrades to an empty list). -/
inductive ProjectsBody
  | asList (l : List ProjRecord)
  | asDictProjects (l : List ProjRecord)
  | asDictResults (l : List ProjRecord)
  | malformed
deriving DecidableEq, Repr

def normalizeProjectsBody : ProjectsBody → List ProjRecord
  | ProjectsBody.asList l => l
  | ProjectsBody.asDictProjects l => l
  | ProjectsBody.asDictResults l => l
  | ProjectsBody.malformed => []

/-- `get_projects` (lines 798-859): raises when unconfigured, when
authentication fails, when `_request_with_retry` returns `None`, and when
the status is not 200; the `except` clause re-raises. -/
def get_projects (c : Client) (lr : LoginResponse)
    (resp : Option (Nat × ProjectsBody)) : Except String (List ProjRecord) :=
  if !is_configured c then Except.error (String.mk (str "API not configured"))
  else if !(test_connection c lr).1 then Except.error (String.mk (str "Not authenticated"))
  else
    match resp with
    | none => Except.error (String.mk (str "Authentication failed"))
    | some (status, body) =>
      if status = 200 then Except.ok (normalizeProjectsBody body)
      else Except.error (String.mk (str "Projects request failed"))

/-- The body shapes `get_project_structures` accepts (lines 898-905). -/
inductive ProjStructuresBody
  | asList (l : List (Int × List Int))
  | asDictResults (l : List (Int × List Int))
  | malformed
deriving DecidableEq, Repr

def normalizeProjStructuresBody : ProjStructuresBody → List (Int × List Int)
  | ProjStructuresBody.asList l => l
  | ProjStructuresBody.asDictResults l => l
  | ProjStructuresBody.malformed => []

/-- `get_project_structures` (lines 861-916): same raising contract as
`get_projects`. -/
def get_project_structures (c : Client) (lr : LoginResponse)
    (resp : Option (Nat × ProjStructuresBody)) :
    Except String (List (Int × List Int)) :=
  if !is_configured c then Except.error (String.mk (str "API not configured"))
  else if !(test_connection c lr).1 then Except.error (String.mk (str "Not authenticated"))
  else
    match resp with
    | none => Except.error (String.mk (str "Authentication failed"))
    | some (status, body) =>
      if status = 200 then Except.ok (normalizeProjStructuresBody body)
      else Except.error (String.mk (str "Project structures request failed"))

/-- The parsed body of `GET /search/{query}`: unparseable JSON, a JSON
body carrying a job `id`, or one without (treated as direct results,
lines 384-392). -/
inductive SearchBody
  | nonJson
  | withId (jobId : List Char)
  | withoutId
deriving DecidableEq, Repr

/-- The fields of the inline queue poll inside `submit_search`. -/
structure QueueBody where
  progress : Option Nat
  structure_ids : Option (List Int)
deriving DecidableEq, Repr

inductive SearchSubmitOutcome
  | completed (structures : List SEntry)
  | running (progress : Nat)
  | direct
deriving DecidableEq, Repr

/-- `submit_search` (lines 302-407): every failure path returns `None`
inside the catch-all `try`, so nothing escapes to the caller. -/
def submit_search (c : Client) (lr : LoginResponse)
    (searchResp : Option (Nat × SearchBody)) (queueResp : Option (Nat × QueueBody))
    (server : List Int → Option (List SEntry)) :
    Except String (Option SearchSubmitOutcome) :=
  if !(test_connection c lr).1 then Except.ok none
  else Except.ok (
    match searchResp with
    | none => none
    | some (s, body) =>
      if s = 200 || s = 201 then
        match body with
        | SearchBody.nonJson => none
        | SearchBody.withoutId => some SearchSubmitOutcome.direct
        | SearchBody.withId _ =>
          match queueResp with
          | none => none
          | some (qs, qb) =>
            if qs = 200 || qs = 201 then
              let progress := qb.progress.getD 0
              if progress = 100 then
                let sids := qb.structure_ids.getD []
                some (SearchSubmitOutcome.completed
                  (if !sids.isEmpty then (get_structures_info server sids).1 else []))
              else some (SearchSubmitOutcome.running progress)
            else none
      else none)

/-- `get_job_status` (lines 409-439): returns the parsed body on 2xx,
`None` otherwise; never raises. -/
def get_job_status (α : Type) (c : Client) (lr : LoginResponse)
    (resp : Option (Nat × α)) : Except String (Option α) :=
  if !(test_connection c lr).1 then Except.ok none
  else Except.ok (
    match resp with
    | none => none
    | some (s, d) => if s = 200 || s = 201 then some d else none)

/-- `get_structures_info` with its authentication gate (lines 441-444):
failures degrade to an empty list. -/
def get_structures_info_op (c : Client) (lr : LoginResponse)
    (server : List Int → Option (List SEntry)) (ids : List Int) :
    Except String (List SEntry) :=
  if !(test_connection c lr).1 then Except.ok []
  else Except.ok (get_structures_info server ids).1

/-- `export_structure_pdb` (lines 632-796): the submission response is a
status plus the plain-text domain event id; a blank (stripped) id, any
request failure and the whole polling loop all resolve to `None` inside
the catch-all `try`. -/
def export_structure_pdb (c : Client) (lr : LoginResponse)
    (subResp : Option (Nat × List Char)) (poll : Nat → PollHttp)
    (dl : Option (Nat × List Char)) : Except String (Option (List Char)) :=
  if !(test_connection c lr).1 then Except.ok none
  else Except.ok (
    match subResp with
    | none => none
    | some (s, body) =>
      if s = 200 || s = 201 then
        if (pyStrip body).isEmpty then none
        else (singleExportPollLoop (List Char) poll dl 30 0).result
      else none)

/-- `download_structures_zip` (lines 1152-1348).  The
`if not self.is_authenticated(): raise Exception("Not authenticated")`
guard sits BEFORE the `try` block, so that exception escapes to the
caller; everything else is caught and becomes `None`. -/
def download_structures_zip (c : Client) (lr : LoginResponse)
    (subResp : Option (Nat × List Char)) (poll : Nat → PollHttp)
    (dl : Option (Nat × ZipContent)) : Except String (Option ZipContent) :=
  if !is_authenticated c lr then Except.error (String.mk (str "Not authenticated"))
  else Except.ok (
    match subResp with
    | none => none
    | some (s, body) =>
      if s = 200 || s = 201 then
        if (pyStrip body).isEmpty then none
        else (singleExportPollLoop ZipContent poll dl 30 0).result
      else none)

/-- `export_structures_with_transforms` (lines 918-1150).  With more than
one request it delegates to `download_structures_zip` inside its `try`
(so a raise there is swallowed into `None`) and unpacks the ZIP; with one
request it submits a text-format export and runs `batchExportPollLoop`.
Never raises. -/
def export_structures_with_transforms (c : Client) (lr : LoginResponse)
    (nReqs : Nat) (firstCode : List Char)
    (zipSub : Option (Nat × List Char)) (zipPoll : Nat → PollHttp)
    (zipDl : Option (Nat × ZipContent))
    (subResp : Option (Nat × List Char)) (poll : Nat → PollHttp)
    (dl : Option (Nat × List Char)) :
    Except String (Option (List (List Char × List Char))) :=
  if !(test_connection c lr).1 then Except.ok none
  else Except.ok (
    if 1 < nReqs then
      match download_structures_zip c lr zipSub zipPoll zipDl with
      | Except.error _ => none
      | Except.ok none => none
      | Except.ok (some zc) => extract_pdbs_from_zip zc
    else
      match subResp with
      | none => none
      | some (s, body) =>
        if s = 200 || s = 201 then
          if (pyStrip body).isEmpty then none
          else (batchExportPollLoop poll dl firstCode 30 0).result
        else none)

/-- The body shapes `get_associated_files` accepts (lines 1377-1390). -/
inductive FilesBody (α : Type)
  | asList (l : List α)
  | asDictFiles (l : List α)
  | asDictResults (l : List α)
  | malformed
deriving DecidableEq, Repr

def normalizeFilesBody (α : Type) : FilesBody α → List α
  | FilesBody.asList l => l
  | FilesBody.asDictFiles l => l
  | FilesBody.asDictResults l => l
  | FilesBody.malformed => []

/-- `get_associated_files` (lines 1350-1402): 404 is a normal empty
result; every failure degrades to an empty list, never raising. -/
def get_associated_files (α : Type) (c : Client) (lr : LoginResponse)
    (resp : Option (Nat × FilesBody α)) : Except String (List α) :=
  if !(test_connection c lr).1 then Except.ok []
  else Except.ok (
    match resp with
    | none => []
    | some (s, b) =>
      if s = 200 then normalizeFilesBody α b
      else if s = 404 then []
      else [])

/-- `download_file_by_id` (lines 1404-1432): the bytes on 200, `None`
otherwise; never raises. -/
def download_file_by_id (α : Type) (c : Client) (lr : LoginResponse)
    (resp : Option (Nat × α)) : Except String (Option α) :=
  if !(test_connection c lr).1 then Except.ok none
  else Except.ok (
    match resp with
    | none => none
    | some (s, b) => if s = 200 then some b else none)

/-- True when the HTTP response argument is present with status 200. -/
def respIs200 (β : Type) : Option (Nat × β) → Bool
  | some (200, _) => true
  | _ => false

/-! ## Transform reshape and flatten (gui.py) -/

/-- The reshape in `load_project_structures_in_tab` (lines 858-863):
`[transform[0:4], transform[4:8], transform[8:12], transform[12:16]]`. -/
def reshape4x4 {α : Type} (t : List α) : List (List α) :=
  [t.take 4, (t.drop 4).take 4, (t.drop 8).take 4, (t.drop 12).take 4]

/-- The row-flattening in `LoadStructureThread.run` (lines 258-265): walk
the rows, requiring each to be a 4-element list, extending an accumulator;
any malformed row aborts with `None`. -/
def extendRows {α : Type} : List (List α) → Option (List α)
  | [] => some []
  | r :: rs =>
    if r.length = 4 then (extendRows rs).map (fun f => r ++ f) else none

/-- Lines 257-267: the matrix must be a 4-row list, each row of length 4,
and the flattened result is used only when its length is 16 (and is then
in particular truthy). -/
def flattenMatrix {α : Type} (m : List (List α)) : Option (List α) :=
  if m.length = 4 then
    match extendRows m with
    | none => none
    | some f => if f.length = 16 then some f else none
  else none

/-! ## Project-list filter (gui.py, `load_projects_for_tab`, lines 706-721) -/

/-- The filter on the project list: a project is kept unless its
lower-cased `project_label` or lower-cased `project_name` equals
"3decision". -/
def filter_projects (projects : List ProjRecord) : List ProjRecord :=
  projects.filter (fun p =>
    !(lowerStr (p.project_label.getD []) == str "3decision") &&
    !(lowerStr (p.project_name.getD []) == str "3decision"))

/-! ## Helper lemmas -/

theorem login_true_token (c : Client) (r : LoginResponse) (h : (login c r).1 = true) :
    ∃ t, (login c r).2.token = some t := by
  unfold login at h ⊢
  by_cases hcfg : is_configured c = true
  · by_cases hst : (r.status = 200 || r.status = 201) = true
    · cases hat : r.access_token with
      | none => simp [hcfg, hst, hat, strTruthy] at h
      | some t =>
        by_cases hemp : t.isEmpty = true
        · simp [hcfg, hst, hat, strTruthy, hemp] at h
        · exact ⟨t, by simp [hcfg, hst, hat, strTruthy, hemp]⟩
    · simp [hcfg, hst] at h
  · simp [hcfg] at h

theorem test_connection_configured (c : Client) (lr : LoginResponse)
    (h : (test_connection c lr).1 = true) : is_configured c = true := by
  by_cases hcfg : is_configured c = true
  · exact hcfg
  · simp [test_connection, hcfg] at h

/-! ## C8: transform reshape/flatten round trip -/

/-- C8: for every 16-element flat transform list, reshaping into rows
[0:4],[4:8],[8:12],[12:16] (as the project-structure merge does) and then
flattening the rows back in order (as the structure-loading path does) is
the identity round trip. -/
theorem c8_reshape_flatten_roundtrip {α : Type} (t : List α) (h : t.length = 16) :
    flattenMatrix (reshape4x4 t) = some t := by
  have h4 : (t.take 4).length = 4 := by simp [List.length_take, h]
  have h48 : ((t.drop 4).take 4).length = 4 := by
    simp [List.length_take, List.length_drop, h]
  have h812 : ((t.drop 8).take 4).length = 4 := by
    simp [List.length_take, List.length_drop, h]
  have h1216 : ((t.drop 12).take 4).length = 4 := by
    simp [List.length_take, List.length_drop, h]
  have hd4 : (t.drop 4).drop 4 = t.drop 8 := by rw [List.drop_drop]
  have hd8 : (t.drop 8).drop 4 = t.drop 12 := by rw [List.drop_drop]
  have ht12 : (t.drop 12).take 4 = t.drop 12 := by
    apply List.take_of_length_le; simp [List.length_drop, h]
  have e1 : t.take 4 ++ ((t.drop 4).take 4 ++ ((t.drop 8).take 4 ++ ((t.drop 12).take 4 ++ []))) = t := by
    rw [List.append_nil, ht12, ← hd8, List.take_append_drop, ← hd4,
      List.take_append_drop, List.take_append_drop]
  simp only [reshape4x4, flattenMatrix, extendRows, h4, h48, h812, h1216, if_true,
    List.length_cons, List.length_nil, Option.map_some, Option.map_none, if_pos]
  simp only [Option.map, e1]
  simp [h]

/-- Witness for C8 at a concrete 16-element list. -/
theorem c8_witness :
    flattenMatrix (reshape4x4 [0, 1, 2, 3, 4, 5, 6, 7, 8, 9, 10, 11, 12, 13, 14, 15]) =
      some [0, 1, 2, 3, 4, 5, 6, 7, 8, 9, 10, 11, 12, 13, 14, 15] :=
  c8_reshape_flatten_roundtrip [0, 1, 2, 3, 4, 5, 6, 7, 8, 9, 10, 11, 12, 13, 14, 15] rfl

/-! ## C9: project-list filter -/

/-- C9 counterexample: a project whose label is not "3decision" is
nevertheless dropped, because the filter also matches `project_name`
(and matches case-insensitively). -/
theorem c9_filter_cex :
    filter_projects [⟨some (str "Keep Me"), some (str "3decision"), 0⟩] = [] ∧
    (⟨some (str "Keep Me"), some (str "3decision"), 0⟩ : ProjRecord).project_label ≠
      some (str "3decision") := by
  exact ⟨by decide, by decide⟩

/-- C9 (amended): the project listing keeps exactly those projects whose
lower-cased `project_label` and lower-cased `project_name` (each
defaulting to the empty string) both differ from "3decision"; in
particular the system project literally labeled "3decision" is always
excluded. -/
theorem c9_filter_projects_spec (ps : List ProjRecord) (p : ProjRecord) :
    p ∈ filter_projects ps ↔
      p ∈ ps ∧ lowerStr (p.project_label.getD []) ≠ str "3decision" ∧
        lowerStr (p.project_name.getD []) ≠ str "3decision" := by
  simp [filter_projects, List.mem_filter, and_assoc]

/-! ## C10: falsy structure ids are dropped by deduplication -/

theorem dedupStructures_mem : ∀ (es : List SEntry) (seen : List Int) (e : SEntry),
    e ∈ dedupStructures seen es → ((∃ i, e.structure_id = some i ∧ i ≠ 0) ∧ e ∈ es) := by
  intro es
  induction es with
  | nil => intro seen e h; simp [dedupStructures] at h
  | cons a rest ih =>
    intro seen e h
    cases ha : a.structure_id with
    | none =>
      simp only [dedupStructures, ha] at h
      rcases ih seen e h with ⟨hi, hm⟩
      exact ⟨hi, by simp [hm]⟩
    | some i =>
      simp only [dedupStructures, ha] at h
      by_cases hc : i ≠ 0 ∧ i ∉ seen
      · rw [if_pos hc] at h
        rcases List.mem_cons.mp h with he | he
        · subst he
          exact ⟨⟨i, ha, hc.1⟩, by simp⟩
        · rcases ih _ e he with ⟨hi, hm⟩
          exact ⟨hi, by simp [hm]⟩
      · rw [if_neg hc] at h
        rcases ih seen e h with ⟨hi, hm⟩
        exact ⟨hi, by simp [hm]⟩

/-- C10: the deduplication in `_fetch_structures_batch` silently drops
every entry whose `structure_id` is missing/null or the falsy integer 0;
every surviving entry carries a non-null, non-zero id, and a falsy-id
entry is dropped even when it is the only entry. -/
theorem c10_dedup_drops_falsy (seen : List Int) (es : List SEntry) (e : SEntry)
    (h : e ∈ dedupStructures seen es) :
    (∃ i, e.structure_id = some i ∧ i ≠ 0) ∧
    dedupStructures [] [⟨none, 7⟩] = [] ∧
    dedupStructures [] [⟨some 0, 7⟩] = [] :=
  ⟨(dedupStructures_mem es seen e h).1, by decide, by decide⟩

/-- Witness for C10 at a concrete surviving entry. -/
theorem c10_witness :
    (∃ i, (⟨some 5, 1⟩ : SEntry).structure_id = some i ∧ i ≠ 0) ∧
    dedupStructures [] [⟨none, 7⟩] = [] ∧
    dedupStructures [] [⟨some 0, 7⟩] = [] :=
  c10_dedup_drops_falsy [] [⟨some 5, 1⟩, ⟨some 0, 2⟩] ⟨some 5, 1⟩ (by decide)

/-! ## C6: ZIP unpacking -/

theorem dictInsert_fresh (m : List (List Char × List Char)) (k v : List Char)
    (h : k ∉ m.map Prod.fst) : dictInsert m k v = m ++ [(k, v)] := by
  unfold dictInsert
  rw [if_neg]
  intro hc
  rcases List.any_eq_true.mp hc with ⟨p, hp, hpk⟩
  exact h (by
    have : p.1 = k := by simpa using hpk
    exact this ▸ List.mem_map_of_mem Prod.fst hp)

theorem dictFold_length : ∀ (es : List (List Char × List Char))
    (m : List (List Char × List Char)),
    ((es.map (fun e => baseName e.1)).Nodup) →
    (∀ e ∈ es, baseName e.1 ∉ m.map Prod.fst) →
    (es.foldl (fun acc e => dictInsert acc (baseName e.1) e.2) m).length =
      m.length + es.length := by
  intro es
  induction es with
  | nil => intro m _ _; simp
  | cons a rest ih =>
    intro m hnd hfresh
    rw [List.foldl_cons, dictInsert_fresh m _ _ (hfresh a (by simp))]
    have hrest : (rest.foldl (fun acc e => dictInsert acc (baseName e.1) e.2)
        (m ++ [(baseName a.1, a.2)])).length =
        (m ++ [(baseName a.1, a.2)]).length + rest.length := by
      apply ih
      · exact (List.nodup_cons.mp (by simpa using hnd)).2
      · intro e he
        rw [List.map_append]
        intro hmem
        rcases List.mem_append.mp hmem with hm | hm
        · exact hfresh e (by simp [he]) hm
        · have : baseName e.1 = baseName a.1 := by simpa using hm
          have hna : baseName a.1 ∉ rest.map (fun e => baseName e.1) :=
            (List.nodup_cons.mp (by simpa using hnd)).1
          exact hna (this ▸ List.mem_map_of_mem (fun e => baseName e.1) he)
    rw [hrest]
    simp
    omega

/-- C6 counterexample: two `.pdb` entries whose path-stripped names
collide yield one mapping pair, not two. -/
theorem c6_zip_cex :
    (([((str "a/x.pdb"), (str "A")), ((str "b/x.pdb"), (str "B"))]).filter
      (fun e => endsWithStr (str ".pdb") e.1)).length = 2 ∧
    extract_pdbs_from_zip (ZipContent.archive
      [((str "a/x.pdb"), (str "A")), ((str "b/x.pdb"), (str "B"))]) =
      some [((str "x.pdb"), (str "B"))] := by
  exact ⟨by decide, by decide⟩

/-- C6 (amended): every ZIP entry ending in `.pdb` contributes to a
mapping keyed by its path-stripped name, where a later entry overwrites
an earlier one with the same stripped name, so the mapping has exactly
one pair per `.pdb` entry whenever the stripped names are pairwise
distinct; an unreadable archive, falsy (empty) downloaded content, or an
archive with zero `.pdb` entries yields failure (`None`), never an empty
mapping. -/
theorem c6_zip_extraction (es : List (List Char × List Char))
    (hnd : ((es.filter (fun e => endsWithStr (str ".pdb") e.1)).map
      (fun e => baseName e.1)).Nodup) :
    extract_pdbs_from_zip ZipContent.unreadable = none ∧
    extract_pdbs_from_zip ZipContent.empty = none ∧
    (es.filter (fun e => endsWithStr (str ".pdb") e.1) = [] →
      extract_pdbs_from_zip (ZipContent.archive es) = none) ∧
    (es.filter (fun e => endsWithStr (str ".pdb") e.1) ≠ [] →
      ∃ d, extract_pdbs_from_zip (ZipContent.archive es) = some d ∧
        d.length = (es.filter (fun e => endsWithStr (str ".pdb") e.1)).length) := by
  have hlen : ((es.filter (fun e => endsWithStr (str ".pdb") e.1)).foldl
      (fun acc e => dictInsert acc (baseName e.1) e.2) []).length =
      (es.filter (fun e => endsWithStr (str ".pdb") e.1)).length := by
    have := dictFold_length (es.filter (fun e => endsWithStr (str ".pdb") e.1)) [] hnd
      (by intro e _; simp)
    simpa using this
  refine ⟨rfl, rfl, ?_, ?_⟩
  · intro hempty
    simp [extract_pdbs_from_zip, hempty]
  · intro hne
    have hpos : 0 < ((es.filter (fun e => endsWithStr (str ".pdb") e.1)).foldl
        (fun acc e => dictInsert acc (baseName e.1) e.2) []).length := by
      rw [hlen]
      cases hf : es.filter (fun e => endsWithStr (str ".pdb") e.1) with
      | nil => exact absurd hf hne
      | cons x xs => simp
    refine ⟨(es.filter (fun e => endsWithStr (str ".pdb") e.1)).foldl
        (fun acc e => dictInsert acc (baseName e.1) e.2) [], ?_, hlen⟩
    simp only [extract_pdbs_from_zip]
    rw [if_neg]
    intro hisEmpty
    rw [List.isEmpty_iff.mp hisEmpty] at hpos
    simp at hpos

/-- Witness for C6 at a one-entry archive. -/
theorem c6_witness :
    ∃ d, extract_pdbs_from_zip (ZipContent.archive [((str "a/x.pdb"), (str "A"))]) = some d ∧
      d.length = (([((str "a/x.pdb"), (str "A"))]).filter
        (fun e => endsWithStr (str ".pdb") e.1)).length :=
  (c6_zip_extraction [((str "a/x.pdb"), (str "A"))] (by decide)).2.2.2 (by decide)

/-! ## C1: single auth retry in the transport -/

/-- C1: when the initial response of `_request_with_retry` has status 401
or 403, the stored token is cleared and exactly one re-login is attempted;
on re-login success the original request is re-issued exactly once with
the refreshed bearer token and its response is returned, on re-login
failure the hard-failure sentinel `None` is returned; and in every
execution at most two requests and at most one login occur. -/
theorem c1_request_with_retry (c : Client) (a : Option (List Char)) (env : RetryEnv)
    (h : env.firstStatus = 401 ∨ env.firstStatus = 403) :
    countLogins (request_with_retry c a env).2.2 = 1 ∧
    ((login { c with token := none } env.loginResp).1 = true →
      (request_with_retry c a env).1 = some env.retryStatus ∧
      countRequests (request_with_retry c a env).2.2 = 2 ∧
      ∃ t, (login { c with token := none } env.loginResp).2.token = some t ∧
        (request_with_retry c a env).2.2.getLast? =
          some (TraceEvent.httpRequest (some (bearer t)))) ∧
    ((login { c with token := none } env.loginResp).1 = false →
      (request_with_retry c a env).1 = none ∧
      countRequests (request_with_retry c a env).2.2 = 1) ∧
    (∀ (c' : Client) (a' : Option (List Char)) (env' : RetryEnv),
      countRequests (request_with_retry c' a' env').2.2 ≤ 2 ∧
      countLogins (request_with_retry c' a' env').2.2 ≤ 1) := by
  have hcond : (env.firstStatus = 401 || env.firstStatus = 403) = true := by
    rcases h with h | h <;> simp [h]
  have hbound : ∀ (c' : Client) (a' : Option (List Char)) (env' : RetryEnv),
      countRequests (request_with_retry c' a' env').2.2 ≤ 2 ∧
      countLogins (request_with_retry c' a' env').2.2 ≤ 1 := by
    intro c' a' env'
    unfold request_with_retry
    by_cases hc' : (env'.firstStatus = 401 || env'.firstStatus = 403) = true
    · cases hok : (login { c' with token := none } env'.loginResp).1 <;>
        simp [hc', hok, countRequests, countLogins, List.filter]
    · simp [hc', countRequests, countLogins, List.filter]
  refine ⟨?_, ?_, ?_, hbound⟩
  · unfold request_with_retry
    cases hok : (login { c with token := none } env.loginResp).1 <;>
      simp [hcond, hok, countLogins, List.filter]
  · intro hok
    rcases login_true_token _ _ hok with ⟨t, ht⟩
    refine ⟨?_, ?_, ⟨t, ht, ?_⟩⟩ <;>
      simp [request_with_retry, hcond, hok, ht, countRequests, List.filter]
  · intro hok
    constructor <;> simp [request_with_retry, hcond, hok, countRequests, List.filter]

/-- Witness for C1 at a concrete 401 response with a successful re-login. -/
theorem c1_witness :
    countLogins (request_with_retry
      ⟨some (str "http-u"), some (str "k"), some (str "t")⟩ none
      ⟨401, ⟨200, some (str "t2")⟩, 200⟩).2.2 = 1 :=
  (c1_request_with_retry ⟨some (str "http-u"), some (str "k"), some (str "t")⟩ none
    ⟨401, ⟨200, some (str "t2")⟩, 200⟩ (Or.inl rfl)).1

/-! ## C3: search-poll terminal condition -/

theorem runSearchPoll_skip (polls : Nat → Option SearchPollResult) :
    ∀ (k fuel attempt : Nat), k < fuel →
    (∀ j, j < k → searchPollContinues (polls (attempt + j)) = true) →
    ∀ r out, polls (attempt + k) = some r → searchPollStep r = some out →
    runSearchPoll polls fuel attempt = out := by
  intro k
  induction k with
  | zero =>
    intro fuel attempt hk hprev r out hr hstep
    cases fuel with
    | zero => omega
    | succ f =>
      rw [Nat.add_zero] at hr
      simp [runSearchPoll, hr, hstep]
  | succ k ih =>
    intro fuel attempt hk hprev r out hr hstep
    cases fuel with
    | zero => omega
    | succ f =>
      have h0 : searchPollContinues (polls attempt) = true := by
        have := hprev 0 (by omega)
        simpa using this
      have hshift : ∀ j, j < k → searchPollContinues (polls (attempt + 1 + j)) = true := by
        intro j hj
        have heq : attempt + 1 + j = attempt + (j + 1) := by omega
        rw [heq]
        exact hprev (j + 1) (by omega)
      have hr' : polls (attempt + 1 + k) = some r := by
        have heq : attempt + 1 + k = attempt + (k + 1) := by omega
        rw [heq]
        exact hr
      cases hpa : polls attempt with
      | none =>
        simp only [runSearchPoll, hpa]
        exact ih f (attempt + 1) (by omega) hshift r out hr' hstep
      | some r' =>
        have hstep' : searchPollStep r' = none := by
          rw [hpa] at h0
          simpa [searchPollContinues, Option.isNone_iff_eq_none] using h0
        simp only [runSearchPoll, hpa, hstep']
        exact ih f (attempt + 1) (by omega) hshift r out hr' hstep

/-- C3 counterexample: a poll response with progress 50 and NO
`returnvalue.STRUCTURE_ID` field is treated as terminal (with an empty
result) by the code, while the claim's condition — the list must be
present and empty — calls it non-terminal. -/
theorem c3_search_cex :
    (searchPollStep ⟨some 50, none, false⟩).isSome = true ∧
    claimedSearchTerminal ⟨some 50, none, false⟩ = false ∧
    searchPollStep ⟨some 50, none, false⟩ = some (SearchOutcome.results []) := by
  exact ⟨by decide, by decide, by decide⟩

/-- C3 (amended): a poll response is terminal exactly when progress is
100, or when the extracted STRUCTURE_ID list (defaulting to empty when
the field is absent) is empty while progress is positive, or when the
job status is `failed`; a terminal response reached within the 60-attempt
budget decides the outcome, and in particular reaching progress 100 with
an empty id list ends the search with an empty result list — neither a
timeout nor an error. -/
theorem c3_search_terminal (polls : Nat → Option SearchPollResult)
    (k : Nat) (r : SearchPollResult) (hk : k < 60)
    (hprev : ∀ j, j < k → searchPollContinues (polls j) = true)
    (hr : polls k = some r) :
    (∀ out, searchPollStep r = some out → search_poll_loop polls = out) ∧
    ((searchPollStep r).isSome = amendedSearchTerminal r) ∧
    (r.progress.getD 0 = 100 → r.structure_ids.getD [] = [] →
      search_poll_loop polls = SearchOutcome.results []) := by
  have happ : ∀ out, searchPollStep r = some out → search_poll_loop polls = out := by
    intro out hstep
    exact runSearchPoll_skip polls k 60 0 hk (by simpa using hprev) r out
      (by simpa using hr) hstep
  refine ⟨happ, ?_, ?_⟩
  · by_cases h1 : r.progress.getD 0 = 100
    · simp [searchPollStep, amendedSearchTerminal, h1]
    · by_cases h2 : ((r.structure_ids.getD []).isEmpty &&
          decide (0 < r.progress.getD 0)) = true
      · simp [searchPollStep, amendedSearchTerminal, h1, h2]
      · cases h3 : r.status_failed <;>
          simp [searchPollStep, amendedSearchTerminal, h1, h2, h3]
  · intro h100 hempty
    apply happ
    simp [searchPollStep, h100, hempty]

/-- Witness for C3: a first poll at progress 100 with an empty id list. -/
theorem c3_witness :
    search_poll_loop (fun _ => some ⟨some 100, some [], false⟩) =
      SearchOutcome.results [] :=
  (c3_search_terminal (fun _ => some ⟨some 100, some [], false⟩) 0
    ⟨some 100, some [], false⟩ (by decide)
    (fun j hj => absurd hj (Nat.not_lt_zero j)) rfl).2.2 rfl rfl

/-! ## C4/C5: export polling loops -/

theorem singleLoop_nonterminal (β : Type) (poll : Nat → PollHttp) (dl : Option (Nat × β))
    (h : ∀ k, isNonTerminalOk (poll k) = true) :
    ∀ (fuel attempt : Nat),
      singleExportPollLoop β poll dl fuel attempt = ⟨none, fuel, 2 * fuel, 0⟩ := by
  intro fuel
  induction fuel with
  | zero => intro attempt; simp [singleExportPollLoop]
  | succ f ih =>
    intro attempt
    have hk := h attempt
    cases hp : poll attempt with
    | fail => simp [isNonTerminalOk, hp] at hk
    | badStatus => simp [isNonTerminalOk, hp] at hk
    | ok d =>
      cases hs : d.state with
      | success => simp [isNonTerminalOk, hp, hs] at hk
      | failed => simp [isNonTerminalOk, hp, hs] at hk
      | other =>
        have harith : 2 * f + 2 = 2 * (f + 1) := by omega
        simp [singleExportPollLoop, hp, hs, ih (attempt + 1), harith]

theorem batchLoop_nonterminal (poll : Nat → PollHttp) (dl : Option (Nat × List Char))
    (code : List Char) (h : ∀ k, isNonTerminalOk (poll k) = true) :
    ∀ (fuel attempt : Nat), attempt + fuel = 30 →
      batchExportPollLoop poll dl code fuel attempt = ⟨none, fuel, 2 * fuel - 2, 0⟩ := by
  intro fuel
  induction fuel with
  | zero => intro attempt _; simp [batchExportPollLoop]
  | succ f ih =>
    intro attempt hsum
    have hk := h attempt
    cases hp : poll attempt with
    | fail => simp [isNonTerminalOk, hp] at hk
    | badStatus => simp [isNonTerminalOk, hp] at hk
    | ok d =>
      cases hs : d.state with
      | success => simp [isNonTerminalOk, hp, hs] at hk
      | failed => simp [isNonTerminalOk, hp, hs] at hk
      | other =>
        simp only [batchExportPollLoop, hp, hs]
        rw [ih (attempt + 1) (by omega)]
        simp only [LoopOut.mk.injEq, and_true, true_and]
        split <;> omega

/-- C4: whenever every domain-event poll returns a non-terminal state
(neither success nor failed), each of the three export polling loops —
single PDB export, batch export with transforms, and ZIP export — issues
exactly 30 polls (never a 31st), sleeps 2 seconds between consecutive
attempts, downloads nothing, and reports the timeout by returning None. -/
theorem c4_export_polling_timeout (poll : Nat → PollHttp)
    (dlText : Option (Nat × List Char)) (dlZip : Option (Nat × ZipContent))
    (dlBatch : Option (Nat × List Char)) (code : List Char)
    (h : ∀ k, isNonTerminalOk (poll k) = true) :
    singleExportPollLoop (List Char) poll dlText 30 0 = ⟨none, 30, 60, 0⟩ ∧
    singleExportPollLoop ZipContent poll dlZip 30 0 = ⟨none, 30, 60, 0⟩ ∧
    batchExportPollLoop poll dlBatch code 30 0 = ⟨none, 30, 58, 0⟩ := by
  refine ⟨?_, ?_, ?_⟩
  · have := singleLoop_nonterminal (List Char) poll dlText h 30 0
    simpa using this
  · have := singleLoop_nonterminal ZipContent poll dlZip h 30 0
    simpa using this
  · have := batchLoop_nonterminal poll dlBatch code h 30 0 rfl
    simpa using this

/-- Witness for C4 at an always-pending poll stream. -/
theorem c4_witness :
    singleExportPollLoop (List Char) (fun _ => PollHttp.ok ⟨DState.other, [], []⟩)
      none 30 0 = ⟨none, 30, 60, 0⟩ :=
  (c4_export_polling_timeout (fun _ => PollHttp.ok ⟨DState.other, [], []⟩)
    none none none [] (fun _ => rfl)).1

theorem singleLoop_success_errors (β : Type) (poll : Nat → PollHttp)
    (dl : Option (Nat × β)) (d : DomainData)
    (hs : d.state = DState.success) (he : d.not_exported ≠ []) :
    ∀ (j fuel attempt : Nat), j < fuel →
      (∀ i, i < j → isNonTerminalOk (poll (attempt + i)) = true) →
      poll (attempt + j) = PollHttp.ok d →
      (singleExportPollLoop β poll dl fuel attempt).result = none ∧
      (singleExportPollLoop β poll dl fuel attempt).downloads = 0 := by
  have hne : (!d.not_exported.isEmpty) = true := by
    cases hne' : d.not_exported with
    | nil => exact absurd hne' he
    | cons x xs => simp
  intro j
  induction j with
  | zero =>
    intro fuel attempt hj hprev hp
    cases fuel with
    | zero => omega
    | succ f =>
      rw [Nat.add_zero] at hp
      simp [singleExportPollLoop, hp, hs, hne]
  | succ j ih =>
    intro fuel attempt hj hprev hp
    cases fuel with
    | zero => omega
    | succ f =>
      have h0 := hprev 0 (by omega)
      rw [Nat.add_zero] at h0
      cases hpa : poll attempt with
      | fail => simp [isNonTerminalOk, hpa] at h0
      | badStatus => simp [isNonTerminalOk, hpa] at h0
      | ok d' =>
        cases hs' : d'.state with
        | success => simp [isNonTerminalOk, hpa, hs'] at h0
        | failed => simp [isNonTerminalOk, hpa, hs'] at h0
        | other =>
          have hp' : poll (attempt + 1 + j) = PollHttp.ok d := by
            have heq : attempt + 1 + j = attempt + (j + 1) := by omega
            rw [heq]; exact hp
          have hprev' : ∀ i, i < j → isNonTerminalOk (poll (attempt + 1 + i)) = true := by
            intro i hi
            have heq : attempt + 1 + i = attempt + (i + 1) := by omega
            rw [heq]; exact hprev (i + 1) (by omega)
          have hrec := ih f (attempt + 1) (by omega) hprev' hp'
          simp only [singleExportPollLoop, hpa, hs']
          simpa using hrec

theorem batchLoop_success_errors (poll : Nat → PollHttp) (dl : Option (Nat × List Char))
    (code : List Char) (d : DomainData)
    (hs : d.state = DState.success) (he : d.not_exported ≠ []) :
    ∀ (j fuel attempt : Nat), j < fuel →
      (∀ i, i < j → isNonTerminalOk (poll (attempt + i)) = true) →
      poll (attempt + j) = PollHttp.ok d →
      (batchExportPollLoop poll dl code fuel attempt).result = none ∧
      (batchExportPollLoop poll dl code fuel attempt).downloads = 0 := by
  have hne : (!d.not_exported.isEmpty) = true := by
    cases hne' : d.not_exported with
    | nil => exact absurd hne' he
    | cons x xs => simp
  intro j
  induction j with
  | zero =>
    intro fuel attempt hj hprev hp
    cases fuel with
    | zero => omega
    | succ f =>
      rw [Nat.add_zero] at hp
      simp [batchExportPollLoop, hp, hs, hne]
  | succ j ih =>
    intro fuel attempt hj hprev hp
    cases fuel with
    | zero => omega
    | succ f =>
      have h0 := hprev 0 (by omega)
      rw [Nat.add_zero] at h0
      cases hpa : poll attempt with
      | fail => simp [isNonTerminalOk, hpa] at h0
      | badStatus => simp [isNonTerminalOk, hpa] at h0
      | ok d' =>
        cases hs' : d'.state with
        | success => simp [isNonTerminalOk, hpa, hs'] at h0
        | failed => simp [isNonTerminalOk, hpa, hs'] at h0
        | other =>
          have hp' : poll (attempt + 1 + j) = PollHttp.ok d := by
            have heq : attempt + 1 + j = attempt + (j + 1) := by omega
            rw [heq]; exact hp
          have hprev' : ∀ i, i < j → isNonTerminalOk (poll (attempt + 1 + i)) = true := by
            intro i hi
            have heq : attempt + 1 + i = attempt + (i + 1) := by omega
            rw [heq]; exact hprev (i + 1) (by omega)
          have hrec := ih f (attempt + 1) (by omega) hprev' hp'
          simp only [batchExportPollLoop, hpa, hs']
          simpa using hrec

/-- C5: whenever the domain event reaches state success with a non-empty
`content.errors.not_exported` list (after any number of still-pending
polls), each export polling loop returns None and issues zero downloads,
and each whole export operation — single PDB export, ZIP download, and
batch export in both its multi-request and single-request form — reports
failure by returning None. -/
theorem c5_partial_export_failure (c : Client) (lr : LoginResponse)
    (poll : Nat → PollHttp) (dlText : Option (Nat × List Char))
    (dlZip : Option (Nat × ZipContent)) (dlBatch : Option (Nat × List Char))
    (code : List Char) (body : List Char) (d : DomainData) (j : Nat)
    (hj : j < 30)
    (hprev : ∀ i, i < j → isNonTerminalOk (poll i) = true)
    (hp : poll j = PollHttp.ok d)
    (hs : d.state = DState.success)
    (he : d.not_exported ≠ [])
    (hc : (test_connection c lr).1 = true)
    (hb : (pyStrip body).isEmpty = false) :
    ((singleExportPollLoop (List Char) poll dlText 30 0).result = none ∧
      (singleExportPollLoop (List Char) poll dlText 30 0).downloads = 0) ∧
    ((singleExportPollLoop ZipContent poll dlZip 30 0).result = none ∧
      (singleExportPollLoop ZipContent poll dlZip 30 0).downloads = 0) ∧
    ((batchExportPollLoop poll dlBatch code 30 0).result = none ∧
      (batchExportPollLoop poll dlBatch code 30 0).downloads = 0) ∧
    export_structure_pdb c lr (some (200, body)) poll dlText = Except.ok none ∧
    download_structures_zip c lr (some (200, body)) poll dlZip = Except.ok none ∧
    export_structures_with_transforms c lr 2 code (some (200, body)) poll dlZip
      (some (200, body)) poll dlBatch = Except.ok none ∧
    export_structures_with_transforms c lr 1 code (some (200, body)) poll dlZip
      (some (200, body)) poll dlBatch = Except.ok none := by
  have h1 := singleLoop_success_errors (List Char) poll dlText d hs he j 30 0 hj
    (by simpa using hprev) (by simpa using hp)
  have h2 := singleLoop_success_errors ZipContent poll dlZip d hs he j 30 0 hj
    (by simpa using hprev) (by simpa using hp)
  have h3 := batchLoop_success_errors poll dlBatch code d hs he j 30 0 hj
    (by simpa using hprev) (by simpa using hp)
  have hcfg : is_configured c = true := test_connection_configured c lr hc
  have hauth : is_authenticated c lr = true := by simp [is_authenticated, hcfg, hc]
  refine ⟨h1, h2, h3, ?_, ?_, ?_, ?_⟩
  · simp [export_structure_pdb, hc, hb, h1.1]
  · simp [download_structures_zip, hauth, hb, h2.1]
  · simp [export_structures_with_transforms, hc, download_structures_zip, hauth, hb, h2.1]
  · simp [export_structures_with_transforms, hc, hb, h3.1]

/-- Witness for C5: a first poll already successful with one
not-exported structure. -/
theorem c5_witness :
    (singleExportPollLoop (List Char)
      (fun i => if i = 0 then PollHttp.ok ⟨DState.success, [str "e"], []⟩
                else PollHttp.ok ⟨DState.other, [], []⟩) none 30 0).result = none :=
  ((c5_partial_export_failure ⟨some (str "u"), some (str "k"), some (str "t")⟩ ⟨200, none⟩
    (fun i => if i = 0 then PollHttp.ok ⟨DState.success, [str "e"], []⟩
              else PollHttp.ok ⟨DState.other, [], []⟩) none none none [] (str "ev")
    ⟨DState.success, [str "e"], []⟩ 0 (by decide)
    (fun i hi => absurd hi (Nat.not_lt_zero i)) rfl rfl
    (by decide) (by decide) (by decide)).1).1

/-! ## C2: batched structure resolution -/

theorem entryIds_append (a b : List SEntry) :
    entryIds (a ++ b) = entryIds a ++ entryIds b :=
  List.filterMap_append a b SEntry.structure_id

theorem chunksAux_join : ∀ (fuel : Nat) (l : List Int), l.length ≤ fuel →
    joinAll (chunksAux fuel l) = l := by
  intro fuel
  induction fuel with
  | zero =>
    intro l hl
    cases l with
    | nil => rfl
    | cons x xs => simp at hl
  | succ f ih =>
    intro l hl
    cases l with
    | nil => rfl
    | cons x xs =>
      simp only [chunksAux, joinAll]
      rw [ih ((x :: xs).drop 500) (by simp [List.length_drop] at *; omega)]
      exact List.take_append_drop 500 (x :: xs)

theorem chunksAux_length : ∀ (fuel : Nat) (l : List Int), l ≠ [] → l.length ≤ fuel →
    (chunksAux fuel l).length = (l.length + 499) / 500 := by
  intro fuel
  induction fuel with
  | zero =>
    intro l hne hl
    cases l with
    | nil => exact absurd rfl hne
    | cons x xs => simp at hl
  | succ f ih =>
    intro l hne hl
    cases l with
    | nil => exact absurd rfl hne
    | cons x xs =>
      simp only [chunksAux, List.length_cons]
      by_cases hd : (x :: xs).drop 500 = []
      · rw [hd]
        have hlen : (x :: xs).length - 500 = 0 := by
          rw [← List.length_drop, hd]; rfl
        simp only [chunksAux, List.length_cons, List.length_nil]
        have : (x :: xs).length = xs.length + 1 := by simp
        omega
      · rw [ih ((x :: xs).drop 500) hd (by simp [List.length_drop] at *; omega)]
        have hlen : ((x :: xs).drop 500).length = (x :: xs).length - 500 :=
          List.length_drop 500 (x :: xs)
        have hpos : ((x :: xs).drop 500).length ≠ 0 := by
          intro h0
          exact hd (List.length_eq_zero.mp h0)
        have : (x :: xs).length = xs.length + 1 := by simp
        omega

theorem chunksAux_sizes : ∀ (fuel : Nat) (l : List Int),
    ∀ q ∈ chunksAux fuel l, q.length ≤ 500 := by
  intro fuel
  induction fuel with
  | zero =>
    intro l q hq
    cases l with
    | nil => simp [chunksAux] at hq
    | cons x xs => simp [chunksAux] at hq
  | succ f ih =>
    intro l q hq
    cases l with
    | nil => simp [chunksAux] at hq
    | cons x xs =>
      simp only [chunksAux, List.mem_cons] at hq
      rcases hq with hq | hq
      · subst hq
        simp [List.length_take]
      · exact ih ((x :: xs).drop 500) q hq

theorem dedupStructures_ids_nodup : ∀ (es : List SEntry) (seen : List Int),
    (entryIds (dedupStructures seen es)).Nodup ∧
    ∀ i ∈ entryIds (dedupStructures seen es), i ∉ seen := by
  intro es
  induction es with
  | nil =>
    intro seen
    refine ⟨by simp [dedupStructures, entryIds], fun i hi => ?_⟩
    simp [dedupStructures, entryIds] at hi
  | cons a rest ih =>
    intro seen
    cases ha : a.structure_id with
    | none =>
      have hskip : dedupStructures seen (a :: rest) = dedupStructures seen rest := by
        simp [dedupStructures, ha]
      rw [hskip]
      exact ih seen
    | some v =>
      by_cases hc : v ≠ 0 ∧ v ∉ seen
      · have hkeep : dedupStructures seen (a :: rest) =
            a :: dedupStructures (v :: seen) rest := by
          simp [dedupStructures, ha, hc]
        have hids : entryIds (dedupStructures seen (a :: rest)) =
            v :: entryIds (dedupStructures (v :: seen) rest) := by
          rw [hkeep]
          simp [entryIds, List.filterMap_cons, ha]
        rcases ih (v :: seen) with ⟨hnd, hdisj⟩
        constructor
        · rw [hids, List.nodup_cons]
          exact ⟨fun hv => (hdisj v hv) (by simp), hnd⟩
        · rw [hids]
          intro i hi
          rcases List.mem_cons.mp hi with h | h
          · subst h; exact hc.2
          · intro hmem
            exact (hdisj i h) (by simp [hmem])
      · have hskip : dedupStructures seen (a :: rest) = dedupStructures seen rest := by
          simp [dedupStructures, ha, hc]
        rw [hskip]
        exact ih seen

theorem dedupStructures_length : ∀ (es : List SEntry) (seen : List Int),
    (dedupStructures seen es).length = (entryIds (dedupStructures seen es)).length := by
  intro es
  induction es with
  | nil => intro seen; simp [dedupStructures, entryIds]
  | cons a rest ih =>
    intro seen
    cases ha : a.structure_id with
    | none =>
      have hskip : dedupStructures seen (a :: rest) = dedupStructures seen rest := by
        simp [dedupStructures, ha]
      rw [hskip]
      exact ih seen
    | some v =>
      by_cases hc : v ≠ 0 ∧ v ∉ seen
      · have hkeep : dedupStructures seen (a :: rest) =
            a :: dedupStructures (v :: seen) rest := by
          simp [dedupStructures, ha, hc]
        rw [hkeep]
        have hids : entryIds (a :: dedupStructures (v :: seen) rest) =
            v :: entryIds (dedupStructures (v :: seen) rest) := by
          simp [entryIds, List.filterMap_cons, ha]
        rw [hids, List.length_cons, List.length_cons, ih (v :: seen)]
      · have hskip : dedupStructures seen (a :: rest) = dedupStructures seen rest := by
          simp [dedupStructures, ha, hc]
        rw [hskip]
        exact ih seen

theorem fetch_batch_ids_nodup (server : List Int → Option (List SEntry)) (q : List Int) :
    (entryIds (fetch_structures_batch server q)).Nodup := by
  unfold fetch_structures_batch
  cases server q with
  | none => simp [entryIds]
  | some es => exact (dedupStructures_ids_nodup es []).1

theorem fetch_batch_ids_mem (server : List Int → Option (List SEntry))
    (hwf : WellFormedServer server) (q : List Int) :
    ∀ i ∈ entryIds (fetch_structures_batch server q), i ∈ q := by
  intro i hi
  unfold fetch_structures_batch at hi
  cases hsq : server q with
  | none => rw [hsq] at hi; simp [entryIds] at hi
  | some es =>
    rw [hsq] at hi
    rcases List.mem_filterMap.mp hi with ⟨e, he, hei⟩
    exact hwf q es hsq e (dedupStructures_mem es [] e he).2 i hei

theorem fetch_batch_length_le (server : List Int → Option (List SEntry))
    (hwf : WellFormedServer server) (q : List Int) :
    (fetch_structures_batch server q).length ≤ q.length := by
  unfold fetch_structures_batch
  cases hsq : server q with
  | none => simp
  | some es =>
    show (dedupStructures [] es).length ≤ q.length
    have hnd := (dedupStructures_ids_nodup es []).1
    have hsub : entryIds (dedupStructures [] es) ⊆ q := by
      intro i hi
      rcases List.mem_filterMap.mp hi with ⟨e, he, hei⟩
      exact hwf q es hsq e (dedupStructures_mem es [] e he).2 i hei
    calc (dedupStructures [] es).length
        = (entryIds (dedupStructures [] es)).length := dedupStructures_length es []
      _ ≤ q.length := (List.subperm_of_subset hnd hsub).length_le

theorem chunked_ids_mem (server : List Int → Option (List SEntry))
    (hwf : WellFormedServer server) :
    ∀ (fuel : Nat) (l : List Int),
      ∀ i ∈ entryIds (joinAll ((chunksAux fuel l).map
        (fun q => fetch_structures_batch server q))), i ∈ l := by
  intro fuel
  induction fuel with
  | zero =>
    intro l i hi
    cases l with
    | nil => simp [chunksAux, joinAll, entryIds] at hi
    | cons x xs => simp [chunksAux, joinAll, entryIds] at hi
  | succ f ih =>
    intro l i hi
    cases l with
    | nil => simp [chunksAux, joinAll, entryIds] at hi
    | cons x xs =>
      simp only [chunksAux, List.map_cons, joinAll, entryIds_append] at hi
      rcases List.mem_append.mp hi with h | h
      · exact List.take_subset 500 (x :: xs) (fetch_batch_ids_mem server hwf _ i h)
      · exact List.drop_subset 500 (x :: xs) (ih ((x :: xs).drop 500) i h)

theorem chunked_ids_nodup (server : List Int → Option (List SEntry))
    (hwf : WellFormedServer server) :
    ∀ (fuel : Nat) (l : List Int), l.length ≤ fuel → l.Nodup →
      (entryIds (joinAll ((chunksAux fuel l).map
        (fun q => fetch_structures_batch server q)))).Nodup := by
  intro fuel
  induction fuel with
  | zero =>
    intro l hl hnd
    cases l with
    | nil => simp [chunksAux, joinAll, entryIds]
    | cons x xs => simp at hl
  | succ f ih =>
    intro l hl hnd
    cases l with
    | nil => simp [chunksAux, joinAll, entryIds]
    | cons x xs =>
      simp only [chunksAux, List.map_cons, joinAll, entryIds_append]
      rw [List.nodup_append]
      refine ⟨fetch_batch_ids_nodup server _,
        ih ((x :: xs).drop 500) (by simp [List.length_drop] at *; omega)
          ((List.drop_sublist 500 (x :: xs)).nodup hnd), ?_⟩
      have hta : ((x :: xs).take 500 ++ (x :: xs).drop 500).Nodup := by
        rw [List.take_append_drop]; exact hnd
      rcases List.nodup_append.mp hta with ⟨_, _, hdisj⟩
      intro i hiA hiB
      exact hdisj (fetch_batch_ids_mem server hwf _ i hiA)
        (chunked_ids_mem server hwf f ((x :: xs).drop 500) i hiB)

theorem chunked_length_le (server : List Int → Option (List SEntry))
    (hwf : WellFormedServer server) :
    ∀ (fuel : Nat) (l : List Int), l.length ≤ fuel →
      (joinAll ((chunksAux fuel l).map
        (fun q => fetch_structures_batch server q))).length ≤ l.length := by
  intro fuel
  induction fuel with
  | zero =>
    intro l hl
    cases l with
    | nil => simp [chunksAux, joinAll]
    | cons x xs => simp at hl
  | succ f ih =>
    intro l hl
    cases l with
    | nil => simp [chunksAux, joinAll]
    | cons x xs =>
      simp only [chunksAux, List.map_cons, joinAll, List.length_append]
      have h1 : (fetch_structures_batch server ((x :: xs).take 500)).length ≤
          ((x :: xs).take 500).length := fetch_batch_length_le server hwf _
      have h2 := ih ((x :: xs).drop 500) (by simp [List.length_drop] at *; omega)
      have h3 : ((x :: xs).take 500).length + ((x :: xs).drop 500).length =
          (x :: xs).length := by
        rw [← List.length_append, List.take_append_drop]
      omega

/-- C2 counterexample: with 501 queried ids in which id 1 recurs across
the 500-id chunk boundary, and a server answering each chunk only with
records of queried ids, the concatenated result contains the record of
structure id 1 twice — deduplication is per chunk only, so the claimed
"no two records with the same structure_id" fails. -/
theorem c2_chunking_cex :
    500 < widsCEx.length ∧
    List.count 1 (entryIds ((get_structures_info serverCEx widsCEx).1)) = 2 ∧
    ¬ (entryIds ((get_structures_info serverCEx widsCEx).1)).Nodup := by
  have hcount : List.count 1 (entryIds ((get_structures_info serverCEx widsCEx).1)) = 2 := by
    decide
  refine ⟨by decide, hcount, fun hnd => ?_⟩
  have hle := List.nodup_iff_count_le_one.mp hnd 1
  omega

/-- C2 (corrected): for more than 500 ids, `get_structures_info` issues
exactly ceil(n/500) batched calls, one per consecutive 500-id chunk of
the input in order (the chunk arguments concatenate back to the input and
each has at most 500 ids), and — provided the input ids are pairwise
distinct and the server answers each chunk only with records of queried
ids — the concatenated result has length at most n and contains no two
records with the same structure_id.  Without the distinctness proviso an
id recurring across a chunk boundary is returned twice (see the
counterexample), because deduplication is per chunk. -/
theorem c2_chunked_resolution (server : List Int → Option (List SEntry)) (ids : List Int)
    (hlen : 500 < ids.length) (hnd : ids.Nodup) (hwf : WellFormedServer server) :
    ((get_structures_info server ids).2).length = (ids.length + 499) / 500 ∧
    joinAll ((get_structures_info server ids).2) = ids ∧
    (∀ q ∈ (get_structures_info server ids).2, q.length ≤ 500) ∧
    ((get_structures_info server ids).1).length ≤ ids.length ∧
    (entryIds ((get_structures_info server ids).1)).Nodup := by
  have hne : ids ≠ [] := by
    intro h
    rw [h] at hlen
    simp at hlen
  have hif : get_structures_info server ids =
      (joinAll ((chunks500 ids).map (fun q => fetch_structures_batch server q)),
       chunks500 ids) := by
    simp [get_structures_info, hlen]
  rw [hif]
  simp only [chunks500]
  exact ⟨chunksAux_length ids.length ids hne le_rfl,
    chunksAux_join ids.length ids le_rfl,
    chunksAux_sizes ids.length ids,
    chunked_length_le server hwf ids.length ids le_rfl,
    chunked_ids_nodup server hwf ids.length ids le_rfl hnd⟩

theorem widsW_length : widsW.length = 501 := by
  unfold widsW
  rw [List.length_map, List.length_range]

theorem widsW_nodup : widsW.Nodup := by
  unfold widsW
  refine List.Nodup.map ?_ (List.nodup_range 501)
  intro a b hab
  simp only [] at hab
  omega

/-- Witness for C2 at 501 pairwise-distinct ids and an empty-answer
server. -/
theorem c2_witness :
    joinAll ((get_structures_info (fun _ => some []) widsW).2) = widsW :=
  (c2_chunked_resolution (fun _ => some []) widsW
    (by rw [widsW_length]; norm_num)
    widsW_nodup
    (by
      intro q es h e he i hei
      simp only [Option.some.injEq] at h
      subst h
      simp at he)).2.1

/-! ## C7: which operations raise and which return null results -/

/-- C7 counterexample: `download_structures_zip` is an export/download
operation, yet on an unconfigured (hence unauthenticated) client it
raises instead of returning the null result the claim promises for every
non-catalog operation. -/
theorem c7_raise_cex :
    (download_structures_zip ⟨none, none, none⟩ ⟨200, none⟩ none
      (fun _ => PollHttp.fail) none).isOk = false := rfl

/-- C7 (corrected): the catalog operations `get_projects` and
`get_project_structures` raise exactly when the client is unconfigured,
authentication fails, or the HTTP response is missing or non-200, and —
with the single exception of `download_structures_zip`, which raises
whenever the client is not authenticated — every other client operation
(search submission, job status, structure info, both export flows,
associated files, file download) surfaces every failure as None or an
empty list and never raises to its caller. -/
theorem c7_error_propagation (c : Client) (lr : LoginResponse) :
    (∀ resp, (get_projects c lr resp).isOk =
      ((test_connection c lr).1 && respIs200 ProjectsBody resp)) ∧
    (∀ resp, (get_project_structures c lr resp).isOk =
      ((test_connection c lr).1 && respIs200 ProjStructuresBody resp)) ∧
    (∀ sr qr server, (submit_search c lr sr qr server).isOk = true) ∧
    (∀ (α : Type) resp, (get_job_status α c lr resp).isOk = true) ∧
    (∀ server ids, (get_structures_info_op c lr server ids).isOk = true) ∧
    (∀ sub poll dl, (export_structure_pdb c lr sub poll dl).isOk = true) ∧
    (∀ n code zs zp zd sub poll dl,
      (export_structures_with_transforms c lr n code zs zp zd sub poll dl).isOk = true) ∧
    (∀ (α : Type) resp, (get_associated_files α c lr resp).isOk = true) ∧
    (∀ (α : Type) resp, (download_file_by_id α c lr resp).isOk = true) ∧
    (∀ sub poll dl, (download_structures_zip c lr sub poll dl).isOk =
      is_authenticated c lr) := by
  refine ⟨?_, ?_, ?_, ?_, ?_, ?_, ?_, ?_, ?_, ?_⟩
  · intro resp
    by_cases hcfg : is_configured c = true
    · by_cases htc : (test_connection c lr).1 = true
      · cases resp with
        | none => simp [get_projects, hcfg, htc, respIs200, Except.isOk, Except.toBool]
        | some sb =>
          obtain ⟨s, b⟩ := sb
          by_cases hs : s = 200
          · subst hs
            simp [get_projects, hcfg, htc, respIs200, Except.isOk, Except.toBool]
          · simp [get_projects, hcfg, htc, respIs200, Except.isOk, Except.toBool, hs]
      · have htc' : (test_connection c lr).1 = false := by
          cases h : (test_connection c lr).1
          · rfl
          · exact absurd h htc
        simp [get_projects, hcfg, htc', Except.isOk, Except.toBool]
    · have htc' : (test_connection c lr).1 = false := by
        cases h : (test_connection c lr).1
        · rfl
        · exact absurd (test_connection_configured c lr h) hcfg
      simp [get_projects, hcfg, htc', Except.isOk, Except.toBool]
  · intro resp
    by_cases hcfg : is_configured c = true
    · by_cases htc : (test_connection c lr).1 = true
      · cases resp with
        | none =>
          simp [get_project_structures, hcfg, htc, respIs200, Except.isOk, Except.toBool]
        | some sb =>
          obtain ⟨s, b⟩ := sb
          by_cases hs : s = 200
          · subst hs
            simp [get_project_structures, hcfg, htc, respIs200, Except.isOk, Except.toBool]
          · simp [get_project_structures, hcfg, htc, respIs200, Except.isOk,
              Except.toBool, hs]
      · have htc' : (test_connection c lr).1 = false := by
          cases h : (test_connection c lr).1
          · rfl
          · exact absurd h htc
        simp [get_project_structures, hcfg, htc', Except.isOk, Except.toBool]
    · have htc' : (test_connection c lr).1 = false := by
        cases h : (test_connection c lr).1
        · rfl
        · exact absurd (test_connection_configured c lr h) hcfg
      simp [get_project_structures, hcfg, htc', Except.isOk, Except.toBool]
  · intro sr qr server
    unfold submit_search
    split <;> rfl
  · intro α resp
    unfold get_job_status
    split <;> rfl
  · intro server ids
    unfold get_structures_info_op
    split <;> rfl
  · intro sub poll dl
    unfold export_structure_pdb
    split <;> rfl
  · intro n code zs zp zd sub poll dl
    unfold export_structures_with_transforms
    split <;> rfl
  · intro α resp
    unfold get_associated_files
    split <;> rfl
  · intro α resp
    unfold download_file_by_id
    split <;> rfl
  · intro sub poll dl
    unfold download_structures_zip
    by_cases hauth : is_authenticated c lr = true
    · simp [hauth, Except.isOk, Except.toBool]
    · have hauth' : is_authenticated c lr = false := by
        cases h : is_authenticated c lr
        · rfl
        · exact absurd h hauth
      simp [hauth', Except.isOk, Except.toBool]

end ThreeDec
